import Mathlib

/-!
Shallow embedding of the CSV normalizer in `src/csv_processor.py`
(`SmartCSVProcessor`).  A raw bank-export table is a header (list of column
names) together with rows of string cells; the normalizer classifies columns
into date / amount (or a debit-credit pair) / description roles by substring
matching on lower-cased, trimmed column names, cleans the monetary cells, and
emits a canonical `{date, description, amount}` table sorted by date
descending.

Modelling conventions:
* cell values are strings (a missing cell reads as `""`); pandas `NaN` cells
  behave the same as `""` through every code path used here (`str(nan)` is
  `"nan"`, which the description combiner drops, `pd.isna` makes
  `_clean_amount` return `0`, and `pd.to_datetime` yields `NaT`);
* amounts are rationals; Python `float` parsing is modelled on the decimal
  grammar the cleaner can actually produce (optional sign, digits, one dot),
  with the string `"nan"` mapping to a non-value (pandas drops such rows) and
  anything else unparseable raising, i.e. yielding `0` in `_clean_amount`
  (the exotic Python spellings `"inf"`, exponents and digit underscores are
  outside the rational model and are treated as unparseable);
* dates are modelled on ISO `YYYY-MM-DD` input (the only shape the claims
  use), encoded as the number `y*10000 + m*100 + d` so that date order is
  numeric order; every theorem quantified over tables holds for an arbitrary
  parser, only concrete evaluations depend on this shape;
* `pandas.sort_values` is modelled by insertion sort; the claims only concern
  the descending-order invariant, never tie order, which the spec leaves
  undefined;
* all character-level operations are defined by structural recursion on
  `List Char` so that every concrete run in the theorems below evaluates
  inside the kernel.
-/

namespace BudgetCsv

section RatReducible

/- Batteries marks the rational-number operations `@[irreducible]`, which
blocks `decide`'s evaluator; restore the default reducibility locally so the
concrete runs below evaluate. -/
attribute [local semireducible] Rat.add Rat.mul Rat.inv Rat.sub

/-- Does one character list start with another? -/
def prefixOfL : List Char → List Char → Bool
  | [], _ => true
  | _ :: _, [] => false
  | a :: as, b :: bs => a == b && prefixOfL as bs

/-- Does `pat` occur contiguously inside `l`?  (Python's `pat in s`.) -/
def infixOfL (pat : List Char) : List Char → Bool
  | [] => pat.isEmpty
  | a :: t => prefixOfL pat (a :: t) || infixOfL pat t

/-- `str.strip()`: drop whitespace from both ends. -/
def trimL (l : List Char) : List Char :=
  ((l.dropWhile Char.isWhitespace).reverse.dropWhile Char.isWhitespace).reverse

/-- `str.lower()` (ASCII, as all column names and cells in play are). -/
def lowerStr (s : String) : String := String.mk (s.data.map Char.toLower)

/-- `str.strip()` on strings. -/
def stripStr (s : String) : String := String.mk (trimL s.data)

/-- `str.lower().strip()` as applied to column names and cells. -/
def normName (s : String) : String := stripStr (lowerStr s)

/-- Python's substring test `pat in s`. -/
def strContains (s pat : String) : Bool := infixOfL pat.data s.data

/-- `self.date_patterns` from `SmartCSVProcessor.__init__`. -/
def datePatterns : List String :=
  ["date", "transaction date", "post date", "posting date",
   "trans date", "transaction_date", "posted date", "value date"]

/-- `self.amount_patterns` from `SmartCSVProcessor.__init__`. -/
def amountPatterns : List String :=
  ["amount", "transaction amount", "debit", "credit",
   "value", "transaction_amount", "sum", "total"]

/-- `self.description_patterns` from `SmartCSVProcessor.__init__`. -/
def descriptionPatterns : List String :=
  ["description", "memo", "details", "transaction details",
   "merchant", "name", "payee", "reference", "transaction_description",
   "narrative", "transaction type", "category"]

/-- A raw uploaded table: header plus rows of string cells
(`RawTable` in the spec's data model). -/
structure RawTable where
  cols : List String
  rows : List (List String)
deriving DecidableEq, Repr

/-- Cell lookup `row[col]`: the cell of `row` under the column named `c`. -/
def getCell (tbl : RawTable) (row : List String) (c : String) : String :=
  match tbl.cols.findIdx? (fun x => x.data == c.data) with
  | some i => row.getD i ""
  | none => ""

/-- The column of values `df[col]`. -/
def colValues (tbl : RawTable) (c : String) : List String :=
  tbl.rows.map (fun r => getCell tbl r c)

/-- `SmartCSVProcessor._find_column`: first column (left to right) whose
lower-cased, trimmed name contains any of the patterns. -/
def findColumn : List String → List String → Option String
  | [], _ => none
  | col :: rest, patterns =>
    if patterns.any (fun p => strContains (normName col) p) then some col
    else findColumn rest patterns

/-- The amount source: either a single amount column or a
(debit column, credit column) pair. -/
inductive AmountCol where
  | single (c : String)
  | pair (debit credit : String)
deriving DecidableEq, Repr

/-- The debit-side test of `_find_amount_column`:
`'debit' in col or 'withdrawal' in col or 'outgoing' in col`. -/
def debitSide (c : String) : Bool :=
  strContains c "debit" || strContains c "withdrawal" || strContains c "outgoing"

/-- The credit-side test of `_find_amount_column`:
`'credit' in col or 'deposit' in col or 'incoming' in col`. -/
def creditSide (c : String) : Bool :=
  strContains c "credit" || strContains c "deposit" || strContains c "incoming"

/-- One iteration of the debit/credit scanning loop of `_find_amount_column`
(lines 104-109): a matching column overwrites the previous holder of its
side, and the `elif` means a column passing the debit test never reaches the
credit test. -/
def pairStep (acc : Option String × Option String) (col : String) :
    Option String × Option String :=
  let l := normName col
  if debitSide l then (some col, acc.2)
  else if creditSide l then (acc.1, some col)
  else acc

/-- The debit/credit scanning loop of `_find_amount_column`. -/
def pairScan (cols : List String) : Option String × Option String :=
  cols.foldl pairStep (none, none)

/-- `SmartCSVProcessor._find_amount_column`. -/
def findAmountColumn (cols : List String) : Option AmountCol :=
  match findColumn cols amountPatterns with
  | some c => some (.single c)
  | none =>
    match pairScan cols with
    | (some d, some c) => some (.pair d c)
    | _ => none

/-- One step of the explicit phase of `_find_description_columns`
(lines 122-126): append `col` when it matches the pattern and was not
collected yet. -/
def descStep (pat : String) (acc2 : List String) (col : String) : List String :=
  if strContains (normName col) pat && !(acc2.contains col) then acc2 ++ [col]
  else acc2

/-- The explicit phase of `_find_description_columns`: for each pattern in
order, append every matching column not collected yet. -/
def explicitDescCols (cols : List String) : List String :=
  descriptionPatterns.foldl (fun acc pat => cols.foldl (descStep pat) acc) []

/-- The regex `^\d+[\.\,]?\d*$` used by the heuristic phase of
`_find_description_columns` to skip numeric-looking columns. -/
def looksNumeric (s : String) : Bool :=
  let l := s.data
  let ds := l.takeWhile Char.isDigit
  let rest := l.drop ds.length
  !ds.isEmpty &&
    (rest.isEmpty ||
      match rest with
      | c :: tl => (c == '.' || c == ',') && tl.all Char.isDigit
      | [] => false)

/-- The heuristic phase of `_find_description_columns` (lines 133-141): for
each column, sample the first (up to five) cells — string cells are never
`NaN`, so `dropna` keeps them and the column dtype is `object` — and keep the
column when its first sampled value is not numeric-looking. -/
def heurDescCols (tbl : RawTable) : List String :=
  tbl.cols.foldl
    (fun acc col =>
      if acc.contains col then acc
      else
        match (colValues tbl col).take 5 with
        | [] => acc
        | v :: _ => if !(looksNumeric v) then acc ++ [col] else acc)
    []

/-- `SmartCSVProcessor._find_description_columns`; `none` models the
`IndexError` that `df.columns[0]` raises on a table with no columns. -/
def findDescriptionColumns (tbl : RawTable) : Option (List String) :=
  let explicit := explicitDescCols tbl.cols
  if explicit = [] then
    let heur := heurDescCols tbl
    if heur = [] then
      match tbl.cols with
      | [] => none
      | c :: _ => some [c]
    else some heur
  else some explicit

/-- Numeric value of a digit string. -/
def digitsVal (l : List Char) : Nat :=
  l.foldl (fun acc c => 10 * acc + (c.toNat - 48)) 0

/-- Result of Python `float(s)`: a number, the non-number `nan`
(pandas later drops it), or a `ValueError`. -/
inductive PyFloat where
  | num (q : ℚ)
  | nan
  | err
deriving DecidableEq, Repr

/-- The body of `pyFloat` once a leading sign has been split off. -/
def pyFloatCore (sgn : ℚ) (l1 : List Char) : PyFloat :=
  if l1.map Char.toLower == ['n', 'a', 'n'] then PyFloat.nan
  else
    let ip := l1.takeWhile Char.isDigit
    let rest := l1.drop ip.length
    match rest with
    | [] => if ip.isEmpty then PyFloat.err else .num (sgn * (digitsVal ip : ℚ))
    | '.' :: frac =>
      if frac.all Char.isDigit && !(ip.isEmpty && frac.isEmpty) then
        .num (sgn * ((digitsVal ip : ℚ) + (digitsVal frac : ℚ) / (10 : ℚ) ^ frac.length))
      else .err
    | _ => .err

/-- Python `float` on the decimal strings `_clean_amount` can produce:
optional sign, then either digits, or digits-dot-digits (either side of the
dot possibly empty but not both), or the literal `nan` (case-insensitive).
Everything else raises. -/
def pyFloat (s : String) : PyFloat :=
  match s.data with
  | '+' :: t => pyFloatCore 1 t
  | '-' :: t => pyFloatCore (-1) t
  | l => pyFloatCore 1 l

/-- Remove every occurrence of the given characters
(`str.replace(c, '')` chained). -/
def stripAll (s : String) (cs : List Char) : String :=
  String.mk (s.data.filter (fun c => !(cs.contains c)))

/-- `SmartCSVProcessor._clean_amount`: trim, strip currency symbols, commas
and spaces, turn a parenthesized value into a `-`-prefixed one, then parse;
parse failure yields `0`; `none` models a `NaN` result. -/
def cleanAmount (value : String) : Option ℚ :=
  let v1 := stripStr value
  let v2 := stripAll v1 ['$', '£', '€']
  let v3 := stripAll v2 [',', ' ']
  let v4 :=
    if v3.data.contains '(' && v3.data.contains ')' then
      String.mk ('-' :: (stripAll v3 ['(', ')']).data)
    else v3
  match pyFloat v4 with
  | .num q => some q
  | .nan => none
  | .err => some 0

/-- The per-row debit/credit reconciliation of `_process_amount`
(lines 173-178): `pd.notna` guards each branch, so a `NaN` cleaned value
(`none`) falls through exactly like `0`. -/
def pairAmount (d c : Option ℚ) : ℚ :=
  match d with
  | some dv =>
    if dv = 0 then
      match c with
      | some cv => if cv = 0 then 0 else |cv|
      | none => 0
    else -|dv|
  | none =>
    match c with
    | some cv => if cv = 0 then 0 else |cv|
    | none => 0

/-- `SmartCSVProcessor._process_amount`, per row: a pair column reconciles
debit against credit (never `NaN`), a single column is cleaned directly. -/
def rowAmount (tbl : RawTable) (acol : AmountCol) (row : List String) : Option ℚ :=
  match acol with
  | .single c => cleanAmount (getCell tbl row c)
  | .pair dc cc =>
    some (pairAmount (cleanAmount (getCell tbl row dc)) (cleanAmount (getCell tbl row cc)))

/-- Split a character list at a separator character. -/
def splitOnCharL (sep : Char) : List Char → List (List Char)
  | [] => [[]]
  | c :: t =>
    let r := splitOnCharL sep t
    if c == sep then [] :: r
    else
      match r with
      | [] => [[c]]
      | h :: t2 => (c :: h) :: t2

/-- Parse a nonempty all-digit character list. -/
def digitsToNat? (l : List Char) : Option Nat :=
  if !l.isEmpty && l.all Char.isDigit then some (digitsVal l) else none

/-- `pd.to_datetime(_, errors='coerce')` on ISO `YYYY-MM-DD` input, encoded
as `y*10000 + m*100 + d` (so date comparison is numeric comparison);
anything else is `NaT` (`none`). -/
def parseDate (s : String) : Option Nat :=
  match splitOnCharL '-' (trimL s.data) with
  | [y, m, d] =>
    match digitsToNat? y, digitsToNat? m, digitsToNat? d with
    | some yn, some mn, some dn =>
      if 1 ≤ mn && mn ≤ 12 && 1 ≤ dn && dn ≤ 31 then
        some (yn * 10000 + mn * 100 + dn)
      else none
    | _, _, _ => none
  | _ => none

/-- A normalized output record (`CanonicalTransaction`). -/
structure CanonRow where
  date : Nat
  description : String
  amount : ℚ
deriving DecidableEq, Repr

/-- The usability test of `_combine_descriptions`:
`val and val.lower() not in ['nan', 'none', '']`. -/
def usableDesc (val : String) : Bool :=
  !(val.data.isEmpty) && !((lowerStr val).data ∈ ["nan".data, "none".data, []])

/-- `' | '.join(parts)`. -/
def joinSepL (sep : List Char) : List (List Char) → List Char
  | [] => []
  | [x] => x
  | x :: y :: rest => x ++ sep ++ joinSepL sep (y :: rest)

/-- `SmartCSVProcessor._combine_descriptions`, per row: collect the trimmed
usable cells of the description columns in selection order, join with
`" | "`, default `"Unknown Transaction"`. -/
def combineRow (tbl : RawTable) (descCols : List String) (row : List String) : String :=
  let parts := descCols.foldl
    (fun acc col =>
      let val := stripStr (getCell tbl row col)
      if usableDesc val then acc ++ [val] else acc)
    []
  if parts.isEmpty then "Unknown Transaction"
  else String.mk (joinSepL " | ".data (parts.map String.data))

/-- One output row of `process_csv`, or `none` when the row is later removed
by `dropna(subset=['date', 'amount'])`. -/
def buildRow (tbl : RawTable) (dcol : String) (acol : AmountCol)
    (descCols : List String) (row : List String) : Option CanonRow :=
  match parseDate (getCell tbl row dcol), rowAmount tbl acol row with
  | some d, some a => some ⟨d, combineRow tbl descCols row, a⟩
  | _, _ => none

/-- `sort_values('date', ascending=False)`. -/
def sortRows (l : List CanonRow) : List CanonRow :=
  List.insertionSort (fun a b => b.date ≤ a.date) l

/-- The failure modes of `process_csv`: the three `ValueError`s it raises,
plus the `IndexError` that `_find_description_columns` raises on a table
with no columns at all. -/
inductive ProcError where
  | indexError
  | noDate
  | noAmount
  | noDescription
deriving DecidableEq, Repr

/-- The message of each `ValueError` raised by `process_csv`. -/
def errMessage : ProcError → String
  | .noDate => "Could not find date column. Please ensure CSV has a date column."
  | .noAmount => "Could not find amount column. Please ensure CSV has an amount column."
  | .noDescription =>
    "Could not find description columns. Please ensure CSV has description/merchant info."
  | .indexError => "IndexError: index 0 is out of bounds"

instance {ε α : Type} [DecidableEq ε] [DecidableEq α] : DecidableEq (Except ε α) := fun a b =>
  match a, b with
  | .ok x, .ok y =>
    if h : x = y then .isTrue (by rw [h]) else .isFalse (by intro hc; cases hc; exact h rfl)
  | .error x, .error y =>
    if h : x = y then .isTrue (by rw [h]) else .isFalse (by intro hc; cases hc; exact h rfl)
  | .ok _, .error _ => .isFalse (by intro hc; cases hc)
  | .error _, .ok _ => .isFalse (by intro hc; cases hc)

/-- Line 48 of `process_csv`: `df.columns = df.columns.str.lower().str.strip()`. -/
def normTable (tbl : RawTable) : RawTable :=
  ⟨tbl.cols.map normName, tbl.rows⟩

/-- `SmartCSVProcessor.process_csv` on an in-memory table.  Column selection
runs first (the description selection can raise `IndexError` before any
check fires), then the three checks in source order, then the per-row build,
`dropna`, and the descending date sort. -/
def processCSV (input : RawTable) : Except ProcError (List CanonRow) :=
  let df := normTable input
  match findDescriptionColumns df with
  | none => .error .indexError
  | some descCols =>
    match findColumn df.cols datePatterns with
    | none => .error .noDate
    | some dcol =>
      match findAmountColumn df.cols with
      | none => .error .noAmount
      | some acol =>
        if descCols.isEmpty then .error .noDescription
        else .ok (sortRows (df.rows.filterMap (buildRow df dcol acol descCols)))

/-! ### Specification-side reformulations

These definitions transcribe the spec's wording (column order, filtering,
joining) so that the behaviour of the code-derived definitions above can be
compared against them. -/

/-- Append the elements of `l` to `acc`, skipping elements already present
(first occurrence kept). -/
def dedupAppend (acc : List String) (l : List String) : List String :=
  l.foldl (fun a x => if a.contains x then a else a ++ [x]) acc

/-- Deduplicate keeping first occurrences. -/
def dedupFirst (l : List String) : List String := dedupAppend [] l

/-- Spec-side form of the per-row description (§4.1.5c): trim each selected
column's cell, drop unusable values, join the survivors in order with
`" | "`, default `"Unknown Transaction"`. -/
def specCombine (tbl : RawTable) (descCols : List String) (row : List String) : String :=
  let survivors := (descCols.map (fun col => stripStr (getCell tbl row col))).filter usableDesc
  if survivors.isEmpty then "Unknown Transaction"
  else String.mk (joinSepL " | ".data (survivors.map String.data))

/-- Does a column name (after normalization) contain a date synonym? -/
def dateMatches (c : String) : Bool :=
  datePatterns.any (fun p => strContains (normName c) p)

/-- Does a column name (after normalization) contain a single-amount synonym? -/
def amountMatches (c : String) : Bool :=
  amountPatterns.any (fun p => strContains (normName c) p)

/-! ### Helper lemmas -/

theorem findColumn_eq_find? (cols patterns : List String) :
    findColumn cols patterns =
      cols.find? (fun c => patterns.any (fun p => strContains (normName c) p)) := by
  induction cols with
  | nil => rfl
  | cons c rest ih =>
    simp only [findColumn, List.find?_cons]
    cases h : patterns.any (fun p => strContains (normName c) p) <;> simp [h, ih]

theorem findColumn_eq_none_iff (cols patterns : List String) :
    findColumn cols patterns = none ↔
      ∀ c ∈ cols, patterns.any (fun p => strContains (normName c) p) = false := by
  rw [findColumn_eq_find?, List.find?_eq_none]
  simp

/-- Last-wins accumulator: the value left in a slot after scanning `l`. -/
def lastOr (o : Option String) : List String → Option String
  | [] => o
  | x :: xs => lastOr (some x) xs

theorem lastOr_spec : ∀ (l : List String) (o : Option String),
    lastOr o l = if l = [] then o else l.getLast? := by
  intro l
  induction l with
  | nil => intro o; rfl
  | cons x xs ih =>
    intro o
    simp only [lastOr, ih (some x)]
    cases xs with
    | nil => simp
    | cons y ys => simp [List.getLast?_cons_cons]

theorem lastOr_none (l : List String) : lastOr none l = l.getLast? := by
  rw [lastOr_spec]
  cases l <;> simp

theorem pairScan_go (cols : List String) : ∀ (d0 c0 : Option String),
    cols.foldl pairStep (d0, c0) =
      (lastOr d0 (cols.filter (fun c => debitSide (normName c))),
       lastOr c0 (cols.filter (fun c => !(debitSide (normName c)) && creditSide (normName c)))) := by
  induction cols with
  | nil => intro d0 c0; rfl
  | cons col rest ih =>
    intro d0 c0
    simp only [List.foldl_cons, List.filter_cons]
    cases hd : debitSide (normName col) with
    | true => simp [pairStep, hd, ih, lastOr]
    | false =>
      cases hc : creditSide (normName col) with
      | true => simp [pairStep, hd, hc, ih, lastOr]
      | false => simp [pairStep, hd, hc, ih, lastOr]

theorem pairScan_eq (cols : List String) :
    pairScan cols =
      ((cols.filter (fun c => debitSide (normName c))).getLast?,
       (cols.filter (fun c => !(debitSide (normName c)) && creditSide (normName c))).getLast?) := by
  rw [pairScan, pairScan_go, lastOr_none, lastOr_none]

/-- The accumulator form of the part-collection loop in
`_combine_descriptions`. -/
theorem combineRow_go (tbl : RawTable) (row : List String) :
    ∀ (descCols : List String) (acc : List String),
      descCols.foldl
        (fun acc2 col =>
          let val := stripStr (getCell tbl row col)
          if usableDesc val then acc2 ++ [val] else acc2)
        acc =
      acc ++ (descCols.map (fun col => stripStr (getCell tbl row col))).filter usableDesc := by
  intro descCols
  induction descCols with
  | nil => intro acc; simp
  | cons c rest ih =>
    intro acc
    simp only [List.foldl_cons, List.map_cons, List.filter_cons]
    cases h : usableDesc (stripStr (getCell tbl row c)) <;> simp [h, ih]

theorem combineRow_eq_spec (tbl : RawTable) (descCols : List String) (row : List String) :
    combineRow tbl descCols row = specCombine tbl descCols row := by
  simp only [combineRow, specCombine, combineRow_go, List.nil_append]

theorem dedupAppend_nil (acc : List String) : dedupAppend acc [] = acc := rfl

theorem dedupAppend_cons (acc : List String) (c : String) (l : List String) :
    dedupAppend acc (c :: l) =
      dedupAppend (if acc.contains c then acc else acc ++ [c]) l := rfl

/-- The accumulator form of the inner loop of the explicit phase of
`_find_description_columns`: collecting pattern-matching columns with an
already-seen check is appending the deduplicated filtered columns. -/
theorem explicitDesc_inner (pat : String) :
    ∀ (cols : List String) (acc : List String),
      cols.foldl (descStep pat) acc =
        dedupAppend acc (cols.filter (fun c => strContains (normName c) pat)) := by
  intro cols
  induction cols with
  | nil => intro acc; rfl
  | cons c rest ih =>
    intro acc
    rw [List.foldl_cons, List.filter_cons]
    cases hm : strContains (normName c) pat with
    | false =>
      have hstep : descStep pat acc c = acc := by
        unfold descStep
        rw [hm]
        rfl
      rw [hstep, if_neg, ih]
      simp
    | true =>
      rw [if_pos rfl, dedupAppend_cons]
      cases hc : acc.contains c with
      | true =>
        have hstep : descStep pat acc c = acc := by
          unfold descStep
          rw [hm, hc]
          rfl
        rw [hstep, if_pos rfl, ih]
      | false =>
        have hstep : descStep pat acc c = acc ++ [c] := by
          unfold descStep
          rw [hm, hc]
          rfl
        rw [hstep, if_neg, ih]
        simp

theorem dedupAppend_append (acc l1 l2 : List String) :
    dedupAppend acc (l1 ++ l2) = dedupAppend (dedupAppend acc l1) l2 := by
  simp [dedupAppend, List.foldl_append]

theorem explicitDescCols_eq_spec (cols : List String) :
    explicitDescCols cols =
      dedupFirst
        (descriptionPatterns.flatMap
          (fun pat => cols.filter (fun c => strContains (normName c) pat))) := by
  rw [explicitDescCols, dedupFirst]
  have go : ∀ (pats : List String) (acc : List String),
      pats.foldl (fun acc pat => cols.foldl (descStep pat) acc) acc =
        dedupAppend acc
          (pats.flatMap (fun pat => cols.filter (fun c => strContains (normName c) pat))) := by
    intro pats
    induction pats with
    | nil => intro acc; rfl
    | cons p rest ih =>
      intro acc
      rw [List.foldl_cons, List.flatMap_cons, dedupAppend_append, explicitDesc_inner, ih]
  exact go descriptionPatterns []

/-- Any table with at least one column yields a nonempty description-column
list (the error path for descriptions is unreachable). -/
theorem findDescriptionColumns_some (tbl : RawTable) (h : tbl.cols ≠ []) :
    ∃ ds, findDescriptionColumns tbl = some ds ∧ ds ≠ [] := by
  unfold findDescriptionColumns
  by_cases he : explicitDescCols tbl.cols = []
  · by_cases hh : heurDescCols tbl = []
    · cases hc : tbl.cols with
      | nil => exact absurd hc h
      | cons c rest =>
        rw [hc] at he
        exact ⟨[c], by simp [he, hh, hc], by simp⟩
    · exact ⟨heurDescCols tbl, by simp [he, hh], hh⟩
  · exact ⟨explicitDescCols tbl.cols, by simp [he], he⟩

theorem normTable_rows (tbl : RawTable) : (normTable tbl).rows = tbl.rows := rfl

theorem normTable_cols_ne_nil {tbl : RawTable} (h : tbl.cols ≠ []) :
    (normTable tbl).cols ≠ [] := by
  simp only [normTable, ne_eq, List.map_eq_nil_iff]
  exact h

instance : IsTotal CanonRow (fun a b => b.date ≤ a.date) :=
  ⟨fun a b => Nat.le_total b.date a.date⟩

instance : IsTrans CanonRow (fun a b => b.date ≤ a.date) :=
  ⟨fun _ _ _ hab hbc => Nat.le_trans hbc hab⟩

theorem sortRows_perm (l : List CanonRow) : (sortRows l).Perm l :=
  List.perm_insertionSort _ l

theorem sortRows_pairwise (l : List CanonRow) :
    (sortRows l).Pairwise (fun a b => b.date ≤ a.date) :=
  List.sorted_insertionSort _ l

theorem processCSV_noDate {tbl : RawTable} {descCols : List String}
    (hds : findDescriptionColumns (normTable tbl) = some descCols)
    (hdc : findColumn (normTable tbl).cols datePatterns = none) :
    processCSV tbl = .error .noDate := by
  simp [processCSV, hds, hdc]

theorem processCSV_noAmount {tbl : RawTable} {descCols : List String} {dcol : String}
    (hds : findDescriptionColumns (normTable tbl) = some descCols)
    (hdc : findColumn (normTable tbl).cols datePatterns = some dcol)
    (hac : findAmountColumn (normTable tbl).cols = none) :
    processCSV tbl = .error .noAmount := by
  simp [processCSV, hds, hdc, hac]

theorem processCSV_ok_of {tbl : RawTable} {descCols : List String} {dcol : String}
    {acol : AmountCol}
    (hds : findDescriptionColumns (normTable tbl) = some descCols)
    (hne : descCols ≠ [])
    (hdc : findColumn (normTable tbl).cols datePatterns = some dcol)
    (hac : findAmountColumn (normTable tbl).cols = some acol) :
    processCSV tbl =
      .ok (sortRows ((normTable tbl).rows.filterMap
        (buildRow (normTable tbl) dcol acol descCols))) := by
  simp [processCSV, hds, hdc, hac, List.isEmpty_iff, hne]

theorem processCSV_ok_elim {tbl : RawTable} {out : List CanonRow}
    (h : processCSV tbl = .ok out) :
    ∃ descCols dcol acol,
      findDescriptionColumns (normTable tbl) = some descCols ∧
      findColumn (normTable tbl).cols datePatterns = some dcol ∧
      findAmountColumn (normTable tbl).cols = some acol ∧
      out = sortRows ((normTable tbl).rows.filterMap
        (buildRow (normTable tbl) dcol acol descCols)) := by
  rcases hds : findDescriptionColumns (normTable tbl) with _ | descCols
  · simp [processCSV, hds] at h
  rcases hdc : findColumn (normTable tbl).cols datePatterns with _ | dcol
  · rw [processCSV_noDate hds hdc] at h
    cases h
  rcases hac : findAmountColumn (normTable tbl).cols with _ | acol
  · rw [processCSV_noAmount hds hdc hac] at h
    cases h
  by_cases hne : descCols = []
  · rw [hne] at hds
    simp [processCSV, hds, hdc, hac] at h
  · rw [processCSV_ok_of hds hne hdc hac] at h
    exact ⟨descCols, dcol, acol, rfl, rfl, rfl, (Except.ok.injEq _ _).mp h.symm⟩

theorem findAmountColumn_none_iff (cols : List String) :
    findAmountColumn cols = none ↔
      (findColumn cols amountPatterns = none ∧
        ((cols.filter (fun c => debitSide (normName c))).getLast? = none ∨
         (cols.filter
           (fun c => !(debitSide (normName c)) && creditSide (normName c))).getLast? = none)) := by
  unfold findAmountColumn
  rcases hfc : findColumn cols amountPatterns with _ | c
  · rw [pairScan_eq]
    rcases h1 : (cols.filter (fun c => debitSide (normName c))).getLast? with _ | d <;>
      rcases h2 : (cols.filter
        (fun c => !(debitSide (normName c)) && creditSide (normName c))).getLast? with _ | c2 <;>
      simp
  · simp

/-! ### Concrete input tables used by the claims -/

/-- The end-to-end scenario input of the spec (§8). -/
def endToEndTable : RawTable :=
  ⟨["Post Date", "Debit", "Credit", "Memo"],
   [["2024-01-05", "$45.32", "", "WHOLE FOODS"],
    ["2024-01-01", "", "3500.00", "PAYROLL"]]⟩

/-- A table whose description-synonym columns appear in the opposite order
to the synonym list (`category` is a later synonym than `memo`). -/
def descOrderTable : RawTable :=
  ⟨["date", "amount", "category", "memo"],
   [["2024-01-05", "1", "Food", "Coffee"]]⟩

/-- A table with a debit-side column and a credit-side column where the
credit-side one also matches a debit-side pattern. -/
def elifPairTable : RawTable :=
  ⟨["post date", "withdrawal", "outgoing incoming"], []⟩

/-- A table with no description synonym and no usable text column. -/
def numericOnlyTable : RawTable := ⟨["zzz"], [["123"]]⟩

/-- A table with a zero-amount row and an unparseable-date row. -/
def dropZeroTable : RawTable :=
  ⟨["date", "amount", "memo"], [["2024-01-02", "0", "A"], ["bad", "5", "B"]]⟩

/-- A table whose rows arrive in ascending date order. -/
def unsortedTable : RawTable :=
  ⟨["date", "amount", "memo"], [["2024-01-01", "1", "A"], ["2024-03-05", "2", "B"]]⟩

/-! ### Claim theorems -/

/-- C1 (counterexample): on the spec's end-to-end input, `process_csv` does
NOT return the claimed rows `{2024-01-05, "WHOLE FOODS", -45.32}` and
`{2024-01-01, "PAYROLL", 3500.00}`: the `Debit` column matches the
single-amount synonym `"debit"` before the debit/credit pair scan is ever
tried, so no sign flip and no credit reading happen. -/
theorem C1_counterexample :
    processCSV endToEndTable ≠
      .ok [⟨20240105, "WHOLE FOODS", -(4532 / 100)⟩, ⟨20240101, "PAYROLL", 3500⟩] := by
  decide

/-- C1 (amended): on the end-to-end input the amount source is the single
column `debit` (it matches a single-amount synonym, so the debit/credit pair
rule is bypassed), and the output rows are `{2024-01-05, "WHOLE FOODS",
+45.32}` and `{2024-01-01, "PAYROLL", 0}` in descending date order: the
debit cell is taken with its own (positive) sign and the credit cell is
ignored, giving `0` for the payroll row. -/
theorem C1_amended :
    findAmountColumn (normTable endToEndTable).cols = some (.single "debit") ∧
    processCSV endToEndTable =
      .ok [⟨20240105, "WHOLE FOODS", 4532 / 100⟩, ⟨20240101, "PAYROLL", 0⟩] := by
  decide

/-- C2 (counterexample): description selection does not keep the table's
left-to-right column order.  With columns `[..., "category", "memo"]` the
selected description columns are `["memo", "category"]` (synonym-list
order), and the combined description is `"Coffee | Food"`, not the
column-order `"Food | Coffee"`. -/
theorem C2_counterexample :
    findDescriptionColumns descOrderTable = some ["memo", "category"] ∧
    ["memo", "category"] ≠ ["category", "memo"] ∧
    processCSV descOrderTable = .ok [⟨20240105, "Coffee | Food", 1⟩] ∧
    "Coffee | Food" ≠ "Food | Coffee" := by
  decide

/-- C2 (amended): description selection retains every column whose
normalized name contains a description synonym, ordered by the fixed
synonym-list order — for each synonym in order, its matching columns
left-to-right, first occurrence kept — and the canonical description is the
trimmed cell values of those columns in that selection order, dropping
values empty or case-insensitively equal to "nan"/"none", joined by " | ",
defaulting to "Unknown Transaction". -/
theorem C2_amended :
    (∀ cols : List String,
      explicitDescCols cols =
        dedupFirst (descriptionPatterns.flatMap
          (fun pat => cols.filter (fun c => strContains (normName c) pat)))) ∧
    (∀ tbl : RawTable, explicitDescCols (normTable tbl).cols ≠ [] →
      findDescriptionColumns (normTable tbl) = some (explicitDescCols (normTable tbl).cols)) ∧
    (∀ (tbl : RawTable) (descCols row : List String),
      combineRow tbl descCols row = specCombine tbl descCols row) := by
  refine ⟨explicitDescCols_eq_spec, ?_, combineRow_eq_spec⟩
  intro tbl hne
  unfold findDescriptionColumns
  rw [if_neg hne]

/-- C2 (witness): the amended selection equation instantiated on the
concrete description-order table. -/
theorem C2_witness :
    explicitDescCols (normTable descOrderTable).cols ≠ [] ∧
    findDescriptionColumns (normTable descOrderTable) =
      some (explicitDescCols (normTable descOrderTable).cols) :=
  ⟨by decide, C2_amended.2.1 descOrderTable (by decide)⟩

/-- C7: `_clean_amount` strips `$`, `£`, `€`, commas and spaces, negates a
parenthesized value, and parses the rest as a decimal, yielding `0` for
empty or unparseable cells: `"$1,234.56" ↦ 1234.56`, `"(45.00)" ↦ -45.00`,
`"€10" ↦ 10.0`, plus representative stripping/failure cases. -/
theorem C7_currency_cleaning :
    cleanAmount "$1,234.56" = some (123456 / 100) ∧
    cleanAmount "(45.00)" = some (-45) ∧
    cleanAmount "€10" = some 10 ∧
    cleanAmount "£1,000.50" = some (100050 / 100) ∧
    cleanAmount "$ 2 500" = some 2500 ∧
    cleanAmount "($3,000.10)" = some (-(300010 / 100)) ∧
    cleanAmount "" = some 0 ∧
    cleanAmount "N/A" = some 0 ∧
    cleanAmount "12.34.56" = some 0 := by
  decide

/-- C8: `_find_column` (used for the date column and the single amount
column) scans columns left-to-right and returns the first whose lower-cased
trimmed name contains any synonym — it is exactly `List.find?` of the
substring test, with no scoring — and on `["Posting Date", "Transaction
Date"]` it selects `"Posting Date"`. -/
theorem C8_first_match :
    (∀ cols patterns : List String,
      findColumn cols patterns =
        cols.find? (fun c => patterns.any (fun p => strContains (normName c) p))) ∧
    findColumn ["Posting Date", "Transaction Date"] datePatterns = some "Posting Date" ∧
    findColumn ["posting date", "transaction date"] datePatterns = some "posting date" :=
  ⟨findColumn_eq_find?, by decide, by decide⟩

/-- C10 (counterexample): in the debit/credit fallback, the credit side is
NOT simply the last column matching the credit-side patterns.  With columns
`["incoming", "outgoing incoming"]`, the last credit-side-matching column is
`"outgoing incoming"`, but it also matches a debit-side pattern, so the
`elif` assigns it to the debit slot and the selected credit column is
`"incoming"`. -/
theorem C10_counterexample :
    findColumn ["incoming", "outgoing incoming"] amountPatterns = none ∧
    creditSide (normName "outgoing incoming") = true ∧
    findAmountColumn ["incoming", "outgoing incoming"] =
      some (.pair "outgoing incoming" "incoming") ∧
    "incoming" ≠ "outgoing incoming" := by
  decide

/-- C10 (amended): in the debit/credit fallback the scan is last-match per
side, where a column matching a debit-side pattern is assigned to the debit
slot (even if it also matches credit-side patterns) and only columns
matching credit-side but no debit-side pattern compete for the credit slot:
the selected pair is the last debit-side match and the last
credit-side-only match. -/
theorem C10_amended (cols : List String) :
    pairScan cols =
      ((cols.filter (fun c => debitSide (normName c))).getLast?,
       (cols.filter (fun c => !(debitSide (normName c)) && creditSide (normName c))).getLast?) ∧
    (∀ d c : String, findAmountColumn cols = some (.pair d c) →
      findColumn cols amountPatterns = none ∧
      (cols.filter (fun c2 => debitSide (normName c2))).getLast? = some d ∧
      (cols.filter
        (fun c2 => !(debitSide (normName c2)) && creditSide (normName c2))).getLast? = some c) := by
  refine ⟨pairScan_eq cols, ?_⟩
  intro d c hfa
  unfold findAmountColumn at hfa
  rcases hfc : findColumn cols amountPatterns with _ | c1
  · rw [hfc] at hfa
    rw [pairScan_eq] at hfa
    rcases h1 : (cols.filter (fun c2 => debitSide (normName c2))).getLast? with _ | d0 <;>
      rw [h1] at hfa <;>
      rcases h2 : (cols.filter
        (fun c2 => !(debitSide (normName c2)) && creditSide (normName c2))).getLast? with _ | c0 <;>
      rw [h2] at hfa <;>
      simp at hfa
    obtain ⟨hd0, hc0⟩ := hfa
    exact ⟨rfl, by rw [hd0], by rw [hc0]⟩
  · rw [hfc] at hfa
    simp at hfa

/-- C10 (witness): the amended last-match rule instantiated on the concrete
overlap table. -/
theorem C10_witness :
    findAmountColumn ["incoming", "outgoing incoming"] =
      some (.pair "outgoing incoming" "incoming") ∧
    (findColumn ["incoming", "outgoing incoming"] amountPatterns = none ∧
     ((["incoming", "outgoing incoming"] : List String).filter
       (fun c2 => debitSide (normName c2))).getLast? = some "outgoing incoming" ∧
     ((["incoming", "outgoing incoming"] : List String).filter
       (fun c2 => !(debitSide (normName c2)) && creditSide (normName c2))).getLast? =
       some "incoming") :=
  ⟨by decide,
   (C10_amended ["incoming", "outgoing incoming"]).2 "outgoing incoming" "incoming" (by decide)⟩

theorem findColumn_some_any {cols patterns : List String} {c : String}
    (h : findColumn cols patterns = some c) :
    cols.any (fun c2 => patterns.any (fun p => strContains (normName c2) p)) = true := by
  rw [findColumn_eq_find?] at h
  have h1 := List.find?_some h
  have h2 := List.mem_of_find?_eq_some h
  rw [List.any_eq_true]
  exact ⟨c, h2, h1⟩

theorem findColumn_none_any {cols patterns : List String}
    (h : findColumn cols patterns = none) :
    cols.any (fun c2 => patterns.any (fun p => strContains (normName c2) p)) = false := by
  rw [findColumn_eq_none_iff] at h
  rw [List.any_eq_false]
  intro x hx
  rw [h x hx]
  exact Bool.false_ne_true

/-- C3 (counterexample): the failure condition is not "no debit-side column
or no credit-side column".  On `["post date", "withdrawal", "outgoing
incoming"]` a debit-side-matching column and a credit-side-matching column
both exist, yet `process_csv` fails with the no-amount error, because the
only credit-side match also matches a debit-side pattern and the `elif`
never assigns it to the credit slot. -/
theorem C3_counterexample :
    processCSV elifPairTable = .error .noAmount ∧
    (∃ c ∈ (normTable elifPairTable).cols, debitSide (normName c) = true) ∧
    (∃ c ∈ (normTable elifPairTable).cols, creditSide (normName c) = true) := by
  decide

/-- C3 (amended): `process_csv` fails exactly when no column name contains a
date synonym, or when there is neither a single amount-synonym column nor a
pair of a debit-side column and a credit-side-only column (a column matching
both sides counts only as debit-side); the date failure is checked first,
the two failures carry distinct messages, and `["Name", "Note"]` fails with
the no-date-column error. -/
theorem C3_amended (tbl : RawTable) (h : tbl.cols ≠ []) :
    ((∃ e, processCSV tbl = .error e) ↔
      ((normTable tbl).cols.any dateMatches = false ∨
       ((normTable tbl).cols.any amountMatches = false ∧
        ((normTable tbl).cols.filter (fun c => debitSide (normName c)) = [] ∨
         (normTable tbl).cols.filter
           (fun c => !(debitSide (normName c)) && creditSide (normName c)) = [])))) ∧
    (processCSV tbl = .error .noDate ↔ (normTable tbl).cols.any dateMatches = false) ∧
    (processCSV tbl = .error .noAmount ↔
      ((normTable tbl).cols.any dateMatches = true ∧
       (normTable tbl).cols.any amountMatches = false ∧
       ((normTable tbl).cols.filter (fun c => debitSide (normName c)) = [] ∨
        (normTable tbl).cols.filter
          (fun c => !(debitSide (normName c)) && creditSide (normName c)) = []))) ∧
    errMessage .noDate ≠ errMessage .noAmount := by
  obtain ⟨ds, hds, hne⟩ := findDescriptionColumns_some _ (normTable_cols_ne_nil h)
  have hdate_none : ∀ hdc : findColumn (normTable tbl).cols datePatterns = none,
      (normTable tbl).cols.any dateMatches = false := by
    intro hdc
    have := findColumn_none_any hdc
    simpa [dateMatches] using this
  have hdate_some : ∀ {dcol} (hdc : findColumn (normTable tbl).cols datePatterns = some dcol),
      (normTable tbl).cols.any dateMatches = true := by
    intro dcol hdc
    have := findColumn_some_any hdc
    simpa [dateMatches] using this
  have hamt_iff : findAmountColumn (normTable tbl).cols = none ↔
      ((normTable tbl).cols.any amountMatches = false ∧
       ((normTable tbl).cols.filter (fun c => debitSide (normName c)) = [] ∨
        (normTable tbl).cols.filter
          (fun c => !(debitSide (normName c)) && creditSide (normName c)) = [])) := by
    rw [findAmountColumn_none_iff]
    constructor
    · rintro ⟨h1, h2⟩
      refine ⟨by simpa [amountMatches] using findColumn_none_any h1, ?_⟩
      rcases h2 with h2 | h2
      · exact Or.inl (List.getLast?_eq_none_iff.mp h2)
      · exact Or.inr (List.getLast?_eq_none_iff.mp h2)
    · rintro ⟨h1, h2⟩
      have hfc : findColumn (normTable tbl).cols amountPatterns = none := by
        rcases hx : findColumn (normTable tbl).cols amountPatterns with _ | c1
        · rfl
        · have hany := findColumn_some_any hx
          rw [show (fun c2 => amountPatterns.any (fun p => strContains (normName c2) p)) =
            amountMatches from rfl] at hany
          rw [hany] at h1
          cases h1
      refine ⟨hfc, ?_⟩
      rcases h2 with h2 | h2
      · exact Or.inl (List.getLast?_eq_none_iff.mpr h2)
      · exact Or.inr (List.getLast?_eq_none_iff.mpr h2)
  refine ⟨?_, ?_, ?_, by decide⟩
  · rcases hdc : findColumn (normTable tbl).cols datePatterns with _ | dcol
    · constructor
      · intro _
        exact Or.inl (hdate_none hdc)
      · intro _
        exact ⟨.noDate, processCSV_noDate hds hdc⟩
    · rcases hac : findAmountColumn (normTable tbl).cols with _ | acol
      · constructor
        · intro _
          exact Or.inr (hamt_iff.mp hac)
        · intro _
          exact ⟨.noAmount, processCSV_noAmount hds hdc hac⟩
      · rw [processCSV_ok_of hds hne hdc hac]
        constructor
        · rintro ⟨e, he⟩
          cases he
        · rintro (hbad | hbad)
          · rw [hdate_some hdc] at hbad
            cases hbad
          · rw [hamt_iff.mpr hbad] at hac
            cases hac
  · rcases hdc : findColumn (normTable tbl).cols datePatterns with _ | dcol
    · rw [processCSV_noDate hds hdc]
      exact ⟨fun _ => hdate_none hdc, fun _ => rfl⟩
    · constructor
      · intro herr
        rcases hac : findAmountColumn (normTable tbl).cols with _ | acol
        · rw [processCSV_noAmount hds hdc hac] at herr
          cases herr
        · rw [processCSV_ok_of hds hne hdc hac] at herr
          cases herr
      · intro hbad
        rw [hdate_some hdc] at hbad
        cases hbad
  · rcases hdc : findColumn (normTable tbl).cols datePatterns with _ | dcol
    · rw [processCSV_noDate hds hdc]
      constructor
      · intro heq
        cases heq
      · rintro ⟨h1, _⟩
        rw [hdate_none hdc] at h1
        cases h1
    · rcases hac : findAmountColumn (normTable tbl).cols with _ | acol
      · rw [processCSV_noAmount hds hdc hac]
        exact ⟨fun _ => ⟨hdate_some hdc, hamt_iff.mp hac⟩, fun _ => rfl⟩
      · rw [processCSV_ok_of hds hne hdc hac]
        constructor
        · intro heq
          cases heq
        · rintro ⟨_, hbad⟩
          rw [hamt_iff.mpr hbad] at hac
          cases hac

/-- C3 (witness): the `["Name", "Note"]` table has columns and fails with
the no-date-column error, as the amended characterization requires. -/
theorem C3_witness :
    (⟨["Name", "Note"], [["a", "b"]]⟩ : RawTable).cols ≠ [] ∧
    processCSV ⟨["Name", "Note"], [["a", "b"]]⟩ = .error .noDate :=
  ⟨by decide,
   ((C3_amended ⟨["Name", "Note"], [["a", "b"]]⟩ (by decide)).2.1).mpr (by decide)⟩

/-- C4: whenever the debit/credit pair reconciliation applies, the row
amount is `pairAmount` of the two cleaned cells, and `pairAmount` gives
`-abs debit` (negative) when the cleaned debit is a nonzero number,
`+abs credit` (positive) when the debit is absent or zero and the credit is
a nonzero number, and `0` when both are absent or zero — debit takes
priority when both are nonzero. -/
theorem C4_debit_priority_sign (tbl : RawTable) (dc cc : String) (row : List String) :
    rowAmount tbl (.pair dc cc) row =
      some (pairAmount (cleanAmount (getCell tbl row dc)) (cleanAmount (getCell tbl row cc))) ∧
    ∀ d c : Option ℚ,
      (∀ x, d = some x → x ≠ 0 → pairAmount d c = -|x| ∧ pairAmount d c < 0) ∧
      ((d = none ∨ d = some 0) →
        ∀ y, c = some y → y ≠ 0 → pairAmount d c = |y| ∧ 0 < pairAmount d c) ∧
      ((d = none ∨ d = some 0) → (c = none ∨ c = some 0) → pairAmount d c = 0) := by
  refine ⟨rfl, ?_⟩
  intro d c
  refine ⟨?_, ?_, ?_⟩
  · rintro x rfl hx
    simp only [pairAmount]
    rw [if_neg hx]
    exact ⟨rfl, neg_neg_iff_pos.mpr (abs_pos.mpr hx)⟩
  · rintro (rfl | rfl) y rfl hy <;>
      simp only [pairAmount] <;>
      rw [if_neg hy] <;>
      exact ⟨rfl, abs_pos.mpr hy⟩
  · rintro (rfl | rfl) (rfl | rfl) <;> simp [pairAmount]

/-- C4 (witness): the sign rule applied to concrete cleaned values. -/
theorem C4_witness :
    pairAmount (some (4532 / 100)) (some 3500) = -|(4532 / 100 : ℚ)| ∧
    pairAmount (some (4532 / 100)) (some 3500) < 0 :=
  ((C4_debit_priority_sign ⟨[], []⟩ "d" "c" []).2 (some (4532 / 100)) (some 3500)).1
    (4532 / 100) rfl (by norm_num)

/-- C5: an accepted run outputs at most as many rows as the input; with the
selected columns, a row that builds no output record has an unparseable date
or an uncomputable amount, and every row that does build a record — in
particular one with amount exactly `0` — appears in the output. -/
theorem C5_dropped_rows (tbl : RawTable) (out : List CanonRow)
    (h : processCSV tbl = .ok out) :
    out.length ≤ tbl.rows.length ∧
    ∃ descCols dcol acol,
      findDescriptionColumns (normTable tbl) = some descCols ∧
      findColumn (normTable tbl).cols datePatterns = some dcol ∧
      findAmountColumn (normTable tbl).cols = some acol ∧
      ∀ row ∈ tbl.rows,
        (buildRow (normTable tbl) dcol acol descCols row = none →
          parseDate (getCell (normTable tbl) row dcol) = none ∨
          rowAmount (normTable tbl) acol row = none) ∧
        (∀ d a, parseDate (getCell (normTable tbl) row dcol) = some d →
          rowAmount (normTable tbl) acol row = some a →
          (⟨d, combineRow (normTable tbl) descCols row, a⟩ : CanonRow) ∈ out) := by
  obtain ⟨descCols, dcol, acol, hds, hdc, hac, hout⟩ := processCSV_ok_elim h
  constructor
  · rw [hout, (sortRows_perm _).length_eq]
    exact List.length_filterMap_le _ _
  refine ⟨descCols, dcol, acol, hds, hdc, hac, ?_⟩
  intro row hrow
  constructor
  · intro hb
    rcases hp : parseDate (getCell (normTable tbl) row dcol) with _ | dd
    · exact Or.inl rfl
    rcases ha : rowAmount (normTable tbl) acol row with _ | aa
    · exact Or.inr rfl
    · exfalso
      rw [buildRow, hp, ha] at hb
      cases hb
  · intro d a hp ha
    rw [hout]
    refine ((sortRows_perm _).mem_iff).mpr (List.mem_filterMap.mpr ⟨row, hrow, ?_⟩)
    rw [buildRow, hp, ha]

/-- C5 (witness): on a table with a zero-amount row and a bad-date row, the
zero-amount row is retained and the conclusion holds. -/
theorem C5_witness :
    processCSV dropZeroTable = .ok [⟨20240102, "A", 0⟩] ∧
    (([⟨20240102, "A", 0⟩] : List CanonRow).length ≤ dropZeroTable.rows.length ∧
     ∃ descCols dcol acol,
       findDescriptionColumns (normTable dropZeroTable) = some descCols ∧
       findColumn (normTable dropZeroTable).cols datePatterns = some dcol ∧
       findAmountColumn (normTable dropZeroTable).cols = some acol ∧
       ∀ row ∈ dropZeroTable.rows,
         (buildRow (normTable dropZeroTable) dcol acol descCols row = none →
           parseDate (getCell (normTable dropZeroTable) row dcol) = none ∨
           rowAmount (normTable dropZeroTable) acol row = none) ∧
         (∀ d a, parseDate (getCell (normTable dropZeroTable) row dcol) = some d →
           rowAmount (normTable dropZeroTable) acol row = some a →
           (⟨d, combineRow (normTable dropZeroTable) descCols row, a⟩ : CanonRow) ∈
             [⟨20240102, "A", 0⟩])) :=
  ⟨by decide, C5_dropped_rows dropZeroTable [⟨20240102, "A", 0⟩] (by decide)⟩

/-- C6: a table with at least one column always yields a nonempty list of
description columns (falling back to the heuristic and then to the first
column), so `process_csv` never fails on the description path. -/
theorem C6_description_never_fails (tbl : RawTable) (h : tbl.cols ≠ []) :
    (∃ ds, findDescriptionColumns (normTable tbl) = some ds ∧ ds ≠ []) ∧
    processCSV tbl ≠ .error .noDescription ∧
    processCSV tbl ≠ .error .indexError ∧
    (explicitDescCols (normTable tbl).cols = [] → heurDescCols (normTable tbl) = [] →
      ∃ c rest, (normTable tbl).cols = c :: rest ∧
        findDescriptionColumns (normTable tbl) = some [c]) := by
  have h' := normTable_cols_ne_nil h
  obtain ⟨ds, hds, hne⟩ := findDescriptionColumns_some _ h'
  refine ⟨⟨ds, hds, hne⟩, ?_, ?_, ?_⟩
  · rcases hdc : findColumn (normTable tbl).cols datePatterns with _ | dcol
    · rw [processCSV_noDate hds hdc]
      simp
    · rcases hac : findAmountColumn (normTable tbl).cols with _ | acol
      · rw [processCSV_noAmount hds hdc hac]
        simp
      · rw [processCSV_ok_of hds hne hdc hac]
        simp
  · rcases hdc : findColumn (normTable tbl).cols datePatterns with _ | dcol
    · rw [processCSV_noDate hds hdc]
      simp
    · rcases hac : findAmountColumn (normTable tbl).cols with _ | acol
      · rw [processCSV_noAmount hds hdc hac]
        simp
      · rw [processCSV_ok_of hds hne hdc hac]
        simp
  · intro he hh
    cases hcc : (normTable tbl).cols with
    | nil => exact absurd hcc h'
    | cons c rest =>
      refine ⟨c, rest, rfl, ?_⟩
      rw [hcc] at he
      unfold findDescriptionColumns
      rw [hcc, if_pos he, if_pos hh]

/-- C6 (witness): a one-column numeric table degrades to the first column
rather than failing. -/
theorem C6_witness :
    numericOnlyTable.cols ≠ [] ∧
    ((∃ ds, findDescriptionColumns (normTable numericOnlyTable) = some ds ∧ ds ≠ []) ∧
     processCSV numericOnlyTable ≠ .error .noDescription ∧
     processCSV numericOnlyTable ≠ .error .indexError ∧
     (explicitDescCols (normTable numericOnlyTable).cols = [] →
       heurDescCols (normTable numericOnlyTable) = [] →
       ∃ c rest, (normTable numericOnlyTable).cols = c :: rest ∧
         findDescriptionColumns (normTable numericOnlyTable) = some [c])) :=
  ⟨by decide, C6_description_never_fails numericOnlyTable (by decide)⟩

/-- C9: every accepted output table is sorted by date descending: pairwise,
every earlier-positioned row's date is at least every later one's. -/
theorem C9_sorted_descending (tbl : RawTable) (out : List CanonRow)
    (h : processCSV tbl = .ok out) :
    out.Pairwise (fun a b => b.date ≤ a.date) ∧
    ∀ (i j : Fin out.length), i < j → (out.get j).date ≤ (out.get i).date := by
  obtain ⟨descCols, dcol, acol, hds, hdc, hac, hout⟩ := processCSV_ok_elim h
  have hp : out.Pairwise (fun a b => b.date ≤ a.date) := by
    rw [hout]
    exact sortRows_pairwise _
  exact ⟨hp, fun i j hij => (List.pairwise_iff_get.mp hp) i j hij⟩

/-- C9 (witness): an ascending-date input comes out in descending order. -/
theorem C9_witness :
    processCSV unsortedTable = .ok [⟨20240305, "B", 2⟩, ⟨20240101, "A", 1⟩] ∧
    (([⟨20240305, "B", 2⟩, ⟨20240101, "A", 1⟩] : List CanonRow).Pairwise
      (fun a b => b.date ≤ a.date) ∧
     ∀ (i j : Fin ([⟨20240305, "B", 2⟩, ⟨20240101, "A", 1⟩] : List CanonRow).length),
       i < j →
       (([⟨20240305, "B", 2⟩, ⟨20240101, "A", 1⟩] : List CanonRow).get j).date ≤
       (([⟨20240305, "B", 2⟩, ⟨20240101, "A", 1⟩] : List CanonRow).get i).date) :=
  ⟨by decide,
   C9_sorted_descending unsortedTable [⟨20240305, "B", 2⟩, ⟨20240101, "A", 1⟩] (by decide)⟩

end RatReducible

end BudgetCsv
